import Mathlib

/-!
Shallow embedding of the slider widget of `iced_native`
(`src/native/src/widget/slider.rs`), for checking the natural-language
specification against the code.

Floating-point values (`f32` cursor/bounds coordinates, `f64` intermediate
arithmetic) are modelled as exact rationals `ℚ`; machine rounding
(`f64::round`, which rounds half away from zero) is modelled exactly by
`rustRound`, and `f64::EPSILON = 2^-52` by `epsilon`.  The generic value
type `T : Copy + Into<f64> + FromPrimitive` is kept as a type parameter,
with its two numeric conversions passed explicitly (`toF64 : T → ℚ` for
`Into<f64>` and `fromF64 : ℚ → Option T` for `T::from_f64`).
-/

namespace Iced

/-- Modelled from the spec: a screen-space point, one of the geometry/layout
primitives described as "pure value types" (its definition lives in the host
toolkit crate, outside the excerpted source). Coordinates are `f32`,
modelled as `ℚ`. -/
structure Point where
  x : ℚ
  y : ℚ
deriving DecidableEq

/-- Modelled from the spec: an axis-aligned rectangle (geometry primitive of
the host toolkit, outside the excerpted source), as used for layout bounds. -/
structure Rectangle where
  x : ℚ
  y : ℚ
  width : ℚ
  height : ℚ
deriving DecidableEq

/-- Modelled from the spec: the containment test of the geometry primitives
("no behavior beyond containment/arithmetic"): a point is contained when it
lies within the closed box spanned by the rectangle. -/
def Rectangle.contains (b : Rectangle) (p : Point) : Bool :=
  decide (b.x ≤ p.x ∧ p.x ≤ b.x + b.width ∧ b.y ≤ p.y ∧ p.y ≤ b.y + b.height)

/-- The inclusive numeric range `RangeInclusive<T>` of the slider; `start`
models `range.start()` and `stop` models `range.end()`. -/
structure RangeInclusive (T : Type) where
  start : T
  stop : T
deriving DecidableEq

/-- Modelled from the spec: the sizing hint type `Length` of the host toolkit
(only the constructors the excerpted source uses: `Fill`, `Shrink`,
`Units(u16)`). -/
inductive Length where
  | fill
  | shrink
  | units (n : ℕ)
deriving DecidableEq

/-- The orientation of a `Slider` (source lines 562-571); `Horizontal` is the
`#[default]` variant. -/
inductive Orientation where
  | horizontal
  | vertical
deriving DecidableEq

/-- The local state of a `Slider` (source lines 549-552). -/
structure State where
  is_dragging : Bool
deriving DecidableEq

/-- The `State::new` constructor returns the default state (source
lines 554-559), whose `is_dragging` is `false`. -/
def State.new : State := ⟨false⟩

/-- Modelled from the spec: the mouse buttons distinguished by the event
types of the host toolkit (the source matches only on `Button::Left`). -/
inductive MouseButton where
  | left
  | right
  | middle
deriving DecidableEq

/-- Modelled from the spec: the mouse events the host toolkit dispatches
(the source matches `ButtonPressed`, `ButtonReleased`, `CursorMoved`). -/
inductive MouseEvent where
  | buttonPressed (button : MouseButton)
  | buttonReleased (button : MouseButton)
  | cursorMoved
  | other
deriving DecidableEq

/-- Modelled from the spec: the touch events the host toolkit dispatches
(the source matches `FingerPressed`, `FingerLifted`, `FingerLost`,
`FingerMoved`). -/
inductive TouchEvent where
  | fingerPressed
  | fingerLifted
  | fingerLost
  | fingerMoved
deriving DecidableEq

/-- Modelled from the spec: a normalized input event offered to the widget
(mouse or touch; anything else falls into the wildcard arm of `update`). -/
inductive Event where
  | mouse (e : MouseEvent)
  | touch (e : TouchEvent)
  | other
deriving DecidableEq

/-- The event status returned by `update`: `Captured` or `Ignored`. -/
inductive Status where
  | ignored
  | captured
deriving DecidableEq

/-- Rust's `f64::round`: rounds to the nearest integer, ties away from
zero. -/
def rustRound (q : ℚ) : ℚ :=
  if 0 ≤ q then (⌊q + 1/2⌋ : ℤ) else (⌈q - 1/2⌉ : ℤ)

/-- Rust's `f64::EPSILON`, the machine epsilon of 64-bit floats. -/
def epsilon : ℚ := 1 / 2 ^ 52

/-- The `cursor_below_bounds` test inside `update` (source lines 301-306):
whether the cursor sits at or before the start edge of the value axis. -/
def cursor_below_bounds (orientation : Orientation) (bounds : Rectangle)
    (cursor_position : Point) : Bool :=
  match orientation with
  | .horizontal => decide (cursor_position.x ≤ bounds.x)
  | .vertical => decide (cursor_position.y ≥ bounds.y + bounds.height)

/-- The `cursor_above_bounds` test inside `update` (source lines 308-313):
whether the cursor sits at or beyond the far edge of the value axis. -/
def cursor_above_bounds (orientation : Orientation) (bounds : Rectangle)
    (cursor_position : Point) : Bool :=
  match orientation with
  | .horizontal => decide (cursor_position.x ≥ bounds.x + bounds.width)
  | .vertical => decide (cursor_position.y ≤ bounds.y)

/-- The fractional position of the cursor along the value axis (source
lines 324-333); the vertical axis is inverted (value grows upward). -/
def percent_of (orientation : Orientation) (bounds : Rectangle)
    (cursor_position : Point) : ℚ :=
  match orientation with
  | .horizontal => (cursor_position.x - bounds.x) / bounds.width
  | .vertical => 1 - (cursor_position.y - bounds.y) / bounds.height

/-- The raw (pre-conversion) value computed in the interior case of the
cursor-to-value mapping (source lines 335-336):
`steps = round(percent * (end - start) / step)`, `value = steps * step +
start`, all in `f64` arithmetic. -/
def raw_value (T : Type) (toF64 : T → ℚ) (orientation : Orientation)
    (bounds : Rectangle) (cursor_position : Point) (range : RangeInclusive T)
    (step : T) : ℚ :=
  let step := toF64 step
  let start := toF64 range.start
  let stop := toF64 range.stop
  let percent := percent_of orientation bounds cursor_position
  let steps := rustRound (percent * (stop - start) / step)
  steps * step + start

/-- The cursor-to-value mapping inside `update` (source lines 315-343,
the computation of `new_value`): at or before the start edge it yields
`range.start`, at or beyond the far edge `range.end`, and strictly between
the edges the quantized interpolation converted back into `T`, `none` when
`T::from_f64` is not representable. -/
def position_to_value (T : Type) (toF64 : T → ℚ) (fromF64 : ℚ → Option T)
    (orientation : Orientation) (bounds : Rectangle) (cursor_position : Point)
    (range : RangeInclusive T) (step : T) : Option T :=
  if cursor_below_bounds orientation bounds cursor_position then
    some range.start
  else if cursor_above_bounds orientation bounds cursor_position then
    some range.stop
  else
    fromF64 (raw_value T toF64 orientation bounds cursor_position range step)

/-- The `change` closure of `update` (source lines 298-350): computes the
new value from the cursor and, when it differs from the current value by
more than `f64::EPSILON`, publishes the change message and stores it.
Returns the stored value and the list of published messages. -/
def change (T Message : Type) (toF64 : T → ℚ) (fromF64 : ℚ → Option T)
    (orientation : Orientation) (bounds : Rectangle) (cursor_position : Point)
    (range : RangeInclusive T) (step : T) (on_change : T → Message)
    (value : T) : T × List Message :=
  match position_to_value T toF64 fromF64 orientation bounds cursor_position
      range step with
  | none => (value, [])
  | some new_value =>
    if |toF64 value - toF64 new_value| > epsilon then
      (new_value, [on_change new_value])
    else
      (value, [])

/-- The observable result of one call to `update`: the returned
`event::Status`, the widget `State` afterwards, the stored value afterwards,
and the messages published to the shell, in order. -/
structure UpdateResult (T Message : Type) where
  status : Status
  state : State
  value : T
  messages : List Message
deriving DecidableEq

/-- The free function `update` (source lines 279-386): processes an event
and updates the state of a slider.  `bounds` stands for `layout.bounds()`;
the source's `let is_dragging = state.is_dragging` (read once at entry,
never written before its uses) is inlined as `state.is_dragging`. -/
def update (T Message : Type) (toF64 : T → ℚ) (fromF64 : ℚ → Option T)
    (event : Event) (bounds : Rectangle) (cursor_position : Point)
    (state : State) (value : T) (range : RangeInclusive T) (step : T)
    (on_change : T → Message) (on_release : Option Message)
    (orientation : Orientation) : UpdateResult T Message :=
  match event with
  | .mouse (.buttonPressed .left) | .touch .fingerPressed =>
    if bounds.contains cursor_position then
      let c := change T Message toF64 fromF64 orientation bounds
        cursor_position range step on_change value
      ⟨.captured, ⟨true⟩, c.1, c.2⟩
    else
      ⟨.ignored, state, value, []⟩
  | .mouse (.buttonReleased .left) | .touch .fingerLifted
  | .touch .fingerLost =>
    if state.is_dragging then
      ⟨.captured, ⟨false⟩, value, on_release.toList⟩
    else
      ⟨.ignored, state, value, []⟩
  | .mouse .cursorMoved | .touch .fingerMoved =>
    if state.is_dragging then
      let c := change T Message toF64 fromF64 orientation bounds
        cursor_position range step on_change value
      ⟨.captured, state, c.1, c.2⟩
    else
      ⟨.ignored, state, value, []⟩
  | _ => ⟨.ignored, state, value, []⟩

/-- The slider configuration record (source lines 45-59); the `on_change`
closure and the style token play no role in the verified claims and are
omitted from the record (messages enter through `update`'s `on_change`
argument, mirroring the free-function form of the source). -/
structure Slider (T : Type) where
  range : RangeInclusive T
  step : T
  value : T
  on_release : Option Unit
  width : Option Length
  height : Option Length
  orientation : Orientation
deriving DecidableEq

/-- The `Slider::new` constructor (source lines 76-103): raises the value to
`range.start()` when it compares below it, then lowers it to `range.end()`
when it compares above it; the step defaults to one unit and the orientation
to the default (horizontal). -/
def Slider.new (T : Type) [LinearOrder T] [One T] (range : RangeInclusive T)
    (value : T) : Slider T :=
  let value := if value ≥ range.start then value else range.start
  let value := if value ≤ range.stop then value else range.stop
  { range := range
    step := 1
    value := value
    on_release := none
    width := none
    height := none
    orientation := .horizontal }

/-- The constant `Orientation::DEFAULT_HEIGHT` (source line 575). -/
def Orientation.DEFAULT_HEIGHT : Length := .units 22

/-- The constant `Orientation::DEFAULT_WIDTH` (source line 577). -/
def Orientation.DEFAULT_WIDTH : Length := .units 22

/-- The method `Orientation::default_height` (source lines 579-584). -/
def Orientation.default_height : Orientation → Length
  | .horizontal => Orientation.DEFAULT_HEIGHT
  | .vertical => .fill

/-- The method `Orientation::default_width` (source lines 586-591). -/
def Orientation.default_width : Orientation → Length
  | .horizontal => .fill
  | .vertical => Orientation.DEFAULT_WIDTH

/-- The `Widget::width` sizing hint of the slider (source lines 166-171). -/
def Slider.widget_width (s : Slider T) : Length :=
  match s.orientation with
  | .horizontal => s.width.getD .fill
  | .vertical => .shrink

/-- The `Widget::height` sizing hint of the slider (source lines 173-178). -/
def Slider.widget_height (s : Slider T) : Length :=
  match s.orientation with
  | .horizontal => .shrink
  | .vertical => s.height.getD .fill

/-- The effective width fed to the layout limits in `Widget::layout`
(source lines 185-187): the explicit width, or the orientation's default. -/
def Slider.layout_width (s : Slider T) : Length :=
  s.width.getD s.orientation.default_width

/-- The effective height fed to the layout limits in `Widget::layout`
(source lines 188-190): the explicit height, or the orientation's default. -/
def Slider.layout_height (s : Slider T) : Length :=
  s.height.getD s.orientation.default_height

/-- The handle offset computed in `draw` (source lines 491-504): zero for a
degenerate range, otherwise the linear interpolation of the value scaled to
the bounds length along the value axis, minus half the handle's thickness
along that axis. -/
def handle_offset (orientation : Orientation) (bounds : Rectangle)
    (value range_start range_end handle_width : ℚ) : ℚ :=
  if range_start ≥ range_end then 0
  else
    match orientation with
    | .horizontal =>
      bounds.width * (value - range_start) / (range_end - range_start)
        - handle_width / 2
    | .vertical =>
      bounds.height * (value - range_end) / (range_start - range_end)
        - handle_width / 2

/-! ### General lemmas about the embedded operations -/

/-- Rounding a nonnegative rational half-away-from-zero stays nonnegative. -/
theorem rustRound_nonneg (q : ℚ) (h : 0 ≤ q) : 0 ≤ rustRound q := by
  rw [rustRound, if_pos h]
  exact_mod_cast Int.le_floor.mpr (by push_cast; linarith)

/-- Rounding half away from zero overshoots a nonnegative rational by at
most one half. -/
theorem rustRound_le_add_half (q : ℚ) (h : 0 ≤ q) : rustRound q ≤ q + 1/2 := by
  rw [rustRound, if_pos h]
  exact Int.floor_le (q + 1/2)

/-- When the cursor is strictly between the two edges of the value axis,
the fractional position lies strictly between 0 and 1 (and in particular
the bounds have positive extent along that axis). -/
theorem percent_of_pos_lt_one (o : Orientation) (bounds : Rectangle)
    (cursor : Point)
    (hb : cursor_below_bounds o bounds cursor = false)
    (ha : cursor_above_bounds o bounds cursor = false) :
    0 < percent_of o bounds cursor ∧ percent_of o bounds cursor < 1 := by
  cases o with
  | horizontal =>
    simp only [cursor_below_bounds, cursor_above_bounds, ge_iff_le,
      decide_eq_false_iff_not, not_le] at hb ha
    have hw : 0 < bounds.width := by linarith
    refine ⟨div_pos (by linarith) hw, ?_⟩
    rw [percent_of, div_lt_one hw]
    linarith
  | vertical =>
    simp only [cursor_below_bounds, cursor_above_bounds, ge_iff_le,
      decide_eq_false_iff_not, not_le] at hb ha
    have hh : 0 < bounds.height := by linarith
    constructor
    · rw [percent_of]
      have : (cursor.y - bounds.y) / bounds.height < 1 := by
        rw [div_lt_one hh]; linarith
      linarith
    · rw [percent_of]
      have : 0 < (cursor.y - bounds.y) / bounds.height :=
        div_pos (by linarith) hh
      linarith

/-- Any value the cursor-to-value mapping produces over `T = f64` (modelled
as `ℚ` with identity conversions) lies in `[range.start, range.end + step/2]`,
provided the range is ordered and the step positive. -/
theorem position_to_value_mem (o : Orientation) (bounds : Rectangle)
    (cursor : Point) (range : RangeInclusive ℚ) (step : ℚ) (v : ℚ)
    (hse : range.start ≤ range.stop) (hstep : 0 < step)
    (hv : position_to_value ℚ id some o bounds cursor range step = some v) :
    range.start ≤ v ∧ v ≤ range.stop + step / 2 := by
  rw [position_to_value] at hv
  by_cases hb : cursor_below_bounds o bounds cursor
  · rw [if_pos hb] at hv
    cases hv
    exact ⟨le_refl _, by linarith⟩
  · rw [if_neg hb] at hv
    by_cases ha : cursor_above_bounds o bounds cursor
    · rw [if_pos ha] at hv
      cases hv
      exact ⟨hse, by linarith⟩
    · rw [if_neg ha] at hv
      obtain ⟨hp0, hp1⟩ := percent_of_pos_lt_one o bounds cursor
        (Bool.not_eq_true _ ▸ hb) (Bool.not_eq_true _ ▸ ha)
      cases hv
      rw [raw_value]
      simp only [id]
      set p := percent_of o bounds cursor with hp
      set arg := p * (range.stop - range.start) / step with harg
      have harg0 : 0 ≤ arg :=
        div_nonneg (mul_nonneg (le_of_lt hp0) (by linarith)) (le_of_lt hstep)
      have hR0 : 0 ≤ rustRound arg := rustRound_nonneg arg harg0
      have hR1 : rustRound arg ≤ arg + 1/2 := rustRound_le_add_half arg harg0
      have hple : p * (range.stop - range.start) ≤ range.stop - range.start :=
        mul_le_of_le_one_left (by linarith) (le_of_lt hp1)
      have hargle : arg ≤ (range.stop - range.start) / step :=
        (div_le_div_iff_of_pos_right hstep).mpr hple
      have hds : (range.stop - range.start) / step * step
          = range.stop - range.start :=
        div_mul_cancel₀ _ (ne_of_gt hstep)
      constructor
      · nlinarith [mul_nonneg hR0 (le_of_lt hstep)]
      · have h2 : rustRound arg ≤ (range.stop - range.start) / step + 1/2 := by
          linarith
        have h3 : rustRound arg * step
            ≤ ((range.stop - range.start) / step + 1/2) * step :=
          mul_le_mul_of_nonneg_right h2 (le_of_lt hstep)
        have h4 : ((range.stop - range.start) / step + 1/2) * step
            = (range.stop - range.start) + step / 2 := by
          rw [add_mul, hds]; ring
        linarith

/-- The change closure publishes at most one message per invocation. -/
theorem change_snd_length_le_one (T Message : Type) (toF64 : T → ℚ)
    (fromF64 : ℚ → Option T) (o : Orientation) (bounds : Rectangle)
    (cursor : Point) (range : RangeInclusive T) (step : T)
    (on_change : T → Message) (value : T) :
    (change T Message toF64 fromF64 o bounds cursor range step on_change
      value).2.length ≤ 1 := by
  rw [change]
  cases position_to_value T toF64 fromF64 o bounds cursor range step with
  | none => simp
  | some nv =>
    dsimp only
    split <;> simp

/-- The value stored by the change closure is either the old value or a
value produced by the cursor-to-value mapping. -/
theorem change_fst_cases (T Message : Type) (toF64 : T → ℚ)
    (fromF64 : ℚ → Option T) (o : Orientation) (bounds : Rectangle)
    (cursor : Point) (range : RangeInclusive T) (step : T)
    (on_change : T → Message) (value : T) :
    (change T Message toF64 fromF64 o bounds cursor range step on_change
      value).1 = value ∨
    position_to_value T toF64 fromF64 o bounds cursor range step =
      some (change T Message toF64 fromF64 o bounds cursor range step
        on_change value).1 := by
  rw [change]
  cases h : position_to_value T toF64 fromF64 o bounds cursor range step with
  | none => left; rfl
  | some nv =>
    dsimp only
    split
    · right; rfl
    · left; rfl

/-- The value stored by a call to `update` is either the old value or the
value stored by the change closure. -/
theorem update_value_cases (T Message : Type) (toF64 : T → ℚ)
    (fromF64 : ℚ → Option T) (ev : Event) (bounds : Rectangle)
    (cursor : Point) (st : State) (value : T) (range : RangeInclusive T)
    (step : T) (on_change : T → Message) (on_release : Option Message)
    (o : Orientation) :
    (update T Message toF64 fromF64 ev bounds cursor st value range step
        on_change on_release o).value = value ∨
    (update T Message toF64 fromF64 ev bounds cursor st value range step
        on_change on_release o).value =
      (change T Message toF64 fromF64 o bounds cursor range step on_change
        value).1 := by
  unfold update
  split <;> (try split) <;> simp

/-! ### Claim C1 -/

/-- Claim C1, amended: over `T = f64` (modelled as `ℚ` with identity
conversions), for a range with `start ≤ end` and a positive step, every
value produced by the cursor-to-value mapping inside `update` lies in
`[range.start, range.end + step/2]` — the claimed interval
`[range.start, range.end]` can be exceeded by up to half a step when the
quantization rounds up; consequently every call to `update` preserves
membership of the stored value in `[range.start, range.end + step/2]`. -/
theorem c1_value_bounds (o : Orientation) (bounds : Rectangle)
    (cursor : Point) (range : RangeInclusive ℚ) (step : ℚ)
    (hse : range.start ≤ range.stop) (hstep : 0 < step) :
    (∀ v : ℚ,
      position_to_value ℚ id some o bounds cursor range step = some v →
      range.start ≤ v ∧ v ≤ range.stop + step / 2) ∧
    (∀ (Message : Type) (ev : Event) (st : State) (value : ℚ)
      (on_change : ℚ → Message) (on_release : Option Message),
      range.start ≤ value → value ≤ range.stop + step / 2 →
      range.start ≤ (update ℚ Message id some ev bounds cursor st value
          range step on_change on_release o).value ∧
      (update ℚ Message id some ev bounds cursor st value range step
          on_change on_release o).value ≤ range.stop + step / 2) := by
  refine ⟨fun v hv =>
    position_to_value_mem o bounds cursor range step v hse hstep hv, ?_⟩
  intro Message ev st value on_change on_release h0 h1
  rcases update_value_cases ℚ Message id some ev bounds cursor st value
    range step on_change on_release o with h | h
  · rw [h]; exact ⟨h0, h1⟩
  · rw [h]
    rcases change_fst_cases ℚ Message id some o bounds cursor range step
      on_change value with h2 | h2
    · rw [h2]; exact ⟨h0, h1⟩
    · exact position_to_value_mem o bounds cursor range step _ hse hstep h2

/-- Witness for C1 at a concrete input: range [0, 10], step 6, horizontal
bounds of width 10, cursor at x = 9.5; the mapping yields 12, which lies in
the amended interval [0, 13]. -/
theorem c1_value_bounds_witness : (0:ℚ) ≤ 12 ∧ (12:ℚ) ≤ 10 + 6 / 2 :=
  (c1_value_bounds .horizontal ⟨0, 0, 10, 1⟩ ⟨19/2, 1/2⟩ ⟨0, 10⟩ 6
    (by norm_num) (by norm_num)).1 12
    (by norm_num [position_to_value, raw_value, percent_of,
      cursor_below_bounds, cursor_above_bounds, rustRound])

/-- Counterexample to C1 as stated: range [0, 10] (so `start ≤ end`),
step 6, horizontal bounds of width 10, cursor at x = 9.5 strictly between
the edges; a left-button press stores the value 12, outside
[range.start, range.end] = [0, 10]. -/
theorem c1_counterexample :
    cursor_below_bounds .horizontal ⟨0, 0, 10, 1⟩ ⟨19/2, 1/2⟩ = false ∧
    cursor_above_bounds .horizontal ⟨0, 0, 10, 1⟩ ⟨19/2, 1/2⟩ = false ∧
    (update ℚ ℚ id some (.mouse (.buttonPressed .left)) ⟨0, 0, 10, 1⟩
      ⟨19/2, 1/2⟩ ⟨false⟩ 0 ⟨0, 10⟩ 6 (fun t => t) none .horizontal).value
      = 12 ∧
    ¬ ((12:ℚ) ≤ 10) := by
  norm_num [update, change, position_to_value, raw_value, percent_of,
    cursor_below_bounds, cursor_above_bounds, rustRound, Rectangle.contains,
    epsilon]

/-! ### Claim C2 -/

/-- When the cursor-to-value mapping yields a value, the change closure
stores it and publishes the change message precisely when it differs from
the current value by more than `f64::EPSILON`; otherwise it leaves the
value unchanged and publishes nothing. -/
theorem change_spec (T Message : Type) (toF64 : T → ℚ)
    (fromF64 : ℚ → Option T) (o : Orientation) (bounds : Rectangle)
    (cursor : Point) (range : RangeInclusive T) (step : T)
    (on_change : T → Message) (value new_value : T)
    (hv : position_to_value T toF64 fromF64 o bounds cursor range step =
      some new_value) :
    (|toF64 value - toF64 new_value| > epsilon →
      change T Message toF64 fromF64 o bounds cursor range step on_change
        value = (new_value, [on_change new_value])) ∧
    (¬ |toF64 value - toF64 new_value| > epsilon →
      change T Message toF64 fromF64 o bounds cursor range step on_change
        value = (value, [])) := by
  rw [change, hv]
  dsimp only
  exact ⟨fun h => by rw [if_pos h], fun h => by rw [if_neg h]⟩

/-- Claim C2, amended: in `update`, for the events that invoke the change
closure (press and move) and are captured, a change message is published
precisely when the computed new value differs from the current value by
more than `f64::EPSILON`, and the stored value is updated exactly when the
message is published; when no message is published the stored value is
left unchanged rather than set to the computed value (the two can differ by
up to `f64::EPSILON`). -/
theorem c2_conditional_store (T Message : Type) (toF64 : T → ℚ)
    (fromF64 : ℚ → Option T) (ev : Event) (bounds : Rectangle)
    (cursor : Point) (st : State) (value : T) (range : RangeInclusive T)
    (step : T) (on_change : T → Message) (on_release : Option Message)
    (o : Orientation) (new_value : T)
    (hev : ev = .mouse (.buttonPressed .left) ∨ ev = .touch .fingerPressed ∨
      ev = .mouse .cursorMoved ∨ ev = .touch .fingerMoved)
    (hcap : (update T Message toF64 fromF64 ev bounds cursor st value range
      step on_change on_release o).status = .captured)
    (hv : position_to_value T toF64 fromF64 o bounds cursor range step =
      some new_value) :
    (|toF64 value - toF64 new_value| > epsilon →
      (update T Message toF64 fromF64 ev bounds cursor st value range step
        on_change on_release o).value = new_value ∧
      (update T Message toF64 fromF64 ev bounds cursor st value range step
        on_change on_release o).messages = [on_change new_value]) ∧
    (¬ |toF64 value - toF64 new_value| > epsilon →
      (update T Message toF64 fromF64 ev bounds cursor st value range step
        on_change on_release o).value = value ∧
      (update T Message toF64 fromF64 ev bounds cursor st value range step
        on_change on_release o).messages = []) := by
  have hch := change_spec T Message toF64 fromF64 o bounds cursor range step
    on_change value new_value hv
  rcases hev with rfl | rfl | rfl | rfl
  · by_cases hc : bounds.contains cursor = true
    · exact ⟨fun h => by simp [update, hc, hch.1 h],
        fun h => by simp [update, hc, hch.2 h]⟩
    · simp [update, hc] at hcap
  · by_cases hc : bounds.contains cursor = true
    · exact ⟨fun h => by simp [update, hc, hch.1 h],
        fun h => by simp [update, hc, hch.2 h]⟩
    · simp [update, hc] at hcap
  · by_cases hd : st.is_dragging = true
    · exact ⟨fun h => by simp [update, hd, hch.1 h],
        fun h => by simp [update, hd, hch.2 h]⟩
    · simp [update, hd] at hcap
  · by_cases hd : st.is_dragging = true
    · exact ⟨fun h => by simp [update, hd, hch.1 h],
        fun h => by simp [update, hd, hch.2 h]⟩
    · simp [update, hd] at hcap

/-- Witness for C2 at a concrete input: range [0, 1], step 2^-52, cursor at
x = 2^-52 in the unit square, current value 0; the computed value is 2^-52,
the difference equals (does not exceed) `f64::EPSILON`, so the value stays 0
and nothing is published. -/
theorem c2_conditional_store_witness :
    (update ℚ ℚ id some (.mouse (.buttonPressed .left)) ⟨0, 0, 1, 1⟩
      ⟨1/2^52, 1/2⟩ ⟨false⟩ 0 ⟨0, 1⟩ (1/2^52) (fun t => t) none
      .horizontal).value = 0 ∧
    (update ℚ ℚ id some (.mouse (.buttonPressed .left)) ⟨0, 0, 1, 1⟩
      ⟨1/2^52, 1/2⟩ ⟨false⟩ 0 ⟨0, 1⟩ (1/2^52) (fun t => t) none
      .horizontal).messages = [] :=
  (c2_conditional_store ℚ ℚ id some (.mouse (.buttonPressed .left))
    ⟨0, 0, 1, 1⟩ ⟨1/2^52, 1/2⟩ ⟨false⟩ 0 ⟨0, 1⟩ (1/2^52) (fun t => t) none
    .horizontal (1/2^52) (Or.inl rfl)
    (by norm_num [update, change, position_to_value, raw_value, percent_of,
      cursor_below_bounds, cursor_above_bounds, rustRound, Rectangle.contains,
      epsilon, abs_of_nonneg])
    (by norm_num [position_to_value, raw_value, percent_of,
      cursor_below_bounds, cursor_above_bounds, rustRound])).2
    (by rw [id_def, id_def, zero_sub, abs_neg,
      abs_of_nonneg (by norm_num : (0:ℚ) ≤ 1/2^52)]; norm_num [epsilon])

/-- Counterexample to C2 as stated: same input as the witness; the new
value 2^-52 is successfully computed and the event is captured, yet the
stored value remains 0 — it is not updated to the computed value when no
message is published. -/
theorem c2_counterexample :
    position_to_value ℚ id some .horizontal ⟨0, 0, 1, 1⟩ ⟨1/2^52, 1/2⟩
      ⟨0, 1⟩ (1/2^52) = some (1/2^52) ∧
    (update ℚ ℚ id some (.mouse (.buttonPressed .left)) ⟨0, 0, 1, 1⟩
      ⟨1/2^52, 1/2⟩ ⟨false⟩ 0 ⟨0, 1⟩ (1/2^52) (fun t => t) none
      .horizontal) = ⟨.captured, ⟨true⟩, 0, []⟩ ∧
    (0 : ℚ) ≠ 1/2^52 := by
  norm_num [update, change, position_to_value, raw_value, percent_of,
    cursor_below_bounds, cursor_above_bounds, rustRound, Rectangle.contains,
    epsilon, abs_of_nonneg]

/-! ### Claims C3, C10 (press handling) -/

/-- Claim C3: for a left-mouse-button press or finger press while not
dragging: with the cursor inside the layout bounds the change closure's
result is applied (stored value and published messages are exactly its
output, at most one message), dragging starts and the event is captured;
with the cursor outside the bounds the event is ignored, state and value
are unchanged, and nothing is published. -/
theorem c3_press_idle (T Message : Type) (toF64 : T → ℚ)
    (fromF64 : ℚ → Option T) (ev : Event) (bounds : Rectangle)
    (cursor : Point) (st : State) (value : T) (range : RangeInclusive T)
    (step : T) (on_change : T → Message) (on_release : Option Message)
    (o : Orientation)
    (hev : ev = .mouse (.buttonPressed .left) ∨ ev = .touch .fingerPressed)
    (_hd : st.is_dragging = false) :
    (bounds.contains cursor = true →
      update T Message toF64 fromF64 ev bounds cursor st value range step
          on_change on_release o =
        ⟨.captured, ⟨true⟩,
          (change T Message toF64 fromF64 o bounds cursor range step
            on_change value).1,
          (change T Message toF64 fromF64 o bounds cursor range step
            on_change value).2⟩ ∧
      (change T Message toF64 fromF64 o bounds cursor range step on_change
        value).2.length ≤ 1) ∧
    (bounds.contains cursor = false →
      update T Message toF64 fromF64 ev bounds cursor st value range step
          on_change on_release o = ⟨.ignored, st, value, []⟩) := by
  rcases hev with rfl | rfl <;>
    exact ⟨fun hc => ⟨by simp [update, hc],
        change_snd_length_le_one T Message toF64 fromF64 o bounds cursor
          range step on_change value⟩,
      fun hc => by simp [update, hc]⟩

/-- Witness for C3 at concrete inputs: on range [0, 10] with step 1 and
bounds of width 10, a press at x = 5 stores 5, publishes the one change
message 5, starts dragging and is captured; a press at x = 20 (outside) is
ignored and changes nothing. -/
theorem c3_press_idle_witness :
    update ℚ ℚ id some (.mouse (.buttonPressed .left)) ⟨0, 0, 10, 2⟩ ⟨5, 1⟩
      ⟨false⟩ 0 ⟨0, 10⟩ 1 (fun t => t) none .horizontal =
      ⟨.captured, ⟨true⟩, 5, [5]⟩ ∧
    update ℚ ℚ id some (.mouse (.buttonPressed .left)) ⟨0, 0, 10, 2⟩ ⟨20, 1⟩
      ⟨false⟩ 0 ⟨0, 10⟩ 1 (fun t => t) none .horizontal =
      ⟨.ignored, ⟨false⟩, 0, []⟩ := by
  constructor
  · have h := (c3_press_idle ℚ ℚ id some (.mouse (.buttonPressed .left))
      ⟨0, 0, 10, 2⟩ ⟨5, 1⟩ ⟨false⟩ 0 ⟨0, 10⟩ 1 (fun t => t) none .horizontal
      (Or.inl rfl) rfl).1 (by norm_num [Rectangle.contains])
    rw [h.1]
    norm_num [change, position_to_value, raw_value, percent_of,
      cursor_below_bounds, cursor_above_bounds, rustRound, epsilon,
      abs_of_nonneg]
  · exact (c3_press_idle ℚ ℚ id some (.mouse (.buttonPressed .left))
      ⟨0, 0, 10, 2⟩ ⟨20, 1⟩ ⟨false⟩ 0 ⟨0, 10⟩ 1 (fun t => t) none .horizontal
      (Or.inl rfl) rfl).2 (by norm_num [Rectangle.contains])

/-- Claim C10: a press with the cursor inside the bounds is handled exactly
like a fresh press even while a drag is already in progress: the result is
identical to the one from the non-dragging state, the change closure's
result is applied, dragging is (still) true and the event is captured. -/
theorem c10_press_during_drag (T Message : Type) (toF64 : T → ℚ)
    (fromF64 : ℚ → Option T) (ev : Event) (bounds : Rectangle)
    (cursor : Point) (value : T) (range : RangeInclusive T) (step : T)
    (on_change : T → Message) (on_release : Option Message) (o : Orientation)
    (hev : ev = .mouse (.buttonPressed .left) ∨ ev = .touch .fingerPressed)
    (hc : bounds.contains cursor = true) :
    update T Message toF64 fromF64 ev bounds cursor ⟨true⟩ value range step
        on_change on_release o =
      update T Message toF64 fromF64 ev bounds cursor ⟨false⟩ value range
        step on_change on_release o ∧
    update T Message toF64 fromF64 ev bounds cursor ⟨true⟩ value range step
        on_change on_release o =
      ⟨.captured, ⟨true⟩,
        (change T Message toF64 fromF64 o bounds cursor range step on_change
          value).1,
        (change T Message toF64 fromF64 o bounds cursor range step on_change
          value).2⟩ := by
  rcases hev with rfl | rfl <;>
    exact ⟨by simp [update, hc], by simp [update, hc]⟩

/-- Witness for C10 at a concrete input: the press of the C3 witness,
dispatched while already dragging, gives the same captured result. -/
theorem c10_press_during_drag_witness :
    update ℚ ℚ id some (.mouse (.buttonPressed .left)) ⟨0, 0, 10, 2⟩ ⟨5, 1⟩
      ⟨true⟩ 0 ⟨0, 10⟩ 1 (fun t => t) none .horizontal =
    update ℚ ℚ id some (.mouse (.buttonPressed .left)) ⟨0, 0, 10, 2⟩ ⟨5, 1⟩
      ⟨false⟩ 0 ⟨0, 10⟩ 1 (fun t => t) none .horizontal :=
  (c10_press_during_drag ℚ ℚ id some (.mouse (.buttonPressed .left))
    ⟨0, 0, 10, 2⟩ ⟨5, 1⟩ 0 ⟨0, 10⟩ 1 (fun t => t) none .horizontal
    (Or.inl rfl) (by norm_num [Rectangle.contains])).1

/-! ### Claim C4 (release handling, at most one message per call) -/

/-- Every call to `update` publishes at most one message. -/
theorem update_messages_length_le_one (T Message : Type) (toF64 : T → ℚ)
    (fromF64 : ℚ → Option T) (ev : Event) (bounds : Rectangle)
    (cursor : Point) (st : State) (value : T) (range : RangeInclusive T)
    (step : T) (on_change : T → Message) (on_release : Option Message)
    (o : Orientation) :
    (update T Message toF64 fromF64 ev bounds cursor st value range step
      on_change on_release o).messages.length ≤ 1 := by
  have hc := change_snd_length_le_one T Message toF64 fromF64 o bounds
    cursor range step on_change value
  have hr : on_release.toList.length ≤ 1 := by cases on_release <;> simp
  unfold update
  split <;> (try split) <;> first | exact hc | exact hr | simp

/-- Claim C4: for a left-button release, finger-lifted or finger-lost event
while dragging, the configured release message (if any) is published exactly
once, dragging stops, the stored value is unchanged and the event is
captured; moreover every single call to `update` publishes at most one
message (hence at most one change message and at most one release
message). -/
theorem c4_release_drag (T Message : Type) (toF64 : T → ℚ)
    (fromF64 : ℚ → Option T) (ev : Event) (bounds : Rectangle)
    (cursor : Point) (st : State) (value : T) (range : RangeInclusive T)
    (step : T) (on_change : T → Message) (on_release : Option Message)
    (o : Orientation)
    (hev : ev = .mouse (.buttonReleased .left) ∨ ev = .touch .fingerLifted ∨
      ev = .touch .fingerLost)
    (hd : st.is_dragging = true) :
    (update T Message toF64 fromF64 ev bounds cursor st value range step
        on_change on_release o =
      ⟨.captured, ⟨false⟩, value, on_release.toList⟩ ∧
      on_release.toList.length ≤ 1) ∧
    (∀ (ev2 : Event) (bounds2 : Rectangle) (cursor2 : Point) (st2 : State)
      (value2 : T) (range2 : RangeInclusive T) (step2 : T)
      (on_change2 : T → Message) (on_release2 : Option Message)
      (o2 : Orientation),
      (update T Message toF64 fromF64 ev2 bounds2 cursor2 st2 value2 range2
        step2 on_change2 on_release2 o2).messages.length ≤ 1) := by
  constructor
  · rcases hev with rfl | rfl | rfl <;>
      exact ⟨by simp [update, hd], by cases on_release <;> simp⟩
  · intro ev2 bounds2 cursor2 st2 value2 range2 step2 on_change2
      on_release2 o2
    exact update_messages_length_le_one T Message toF64 fromF64 ev2 bounds2
      cursor2 st2 value2 range2 step2 on_change2 on_release2 o2

/-- Witness for C4 at a concrete input: a left-button release while
dragging, with release message 42 configured and stored value 7, publishes
exactly [42], stops dragging, keeps the value and is captured. -/
theorem c4_release_drag_witness :
    update ℚ ℚ id some (.mouse (.buttonReleased .left)) ⟨0, 0, 10, 2⟩
      ⟨5, 1⟩ ⟨true⟩ 7 ⟨0, 10⟩ 1 (fun t => t) (some 42) .horizontal =
      ⟨.captured, ⟨false⟩, 7, [42]⟩ :=
  ((c4_release_drag ℚ ℚ id some (.mouse (.buttonReleased .left))
    ⟨0, 0, 10, 2⟩ ⟨5, 1⟩ ⟨true⟩ 7 ⟨0, 10⟩ 1 (fun t => t) (some 42)
    .horizontal (Or.inl rfl) rfl).1).1

/-! ### Claim C6 (non-representable conversion is a no-op) -/

/-- Claim C6: for any press or move event, when the cursor lies strictly
between the bounds' edges along the value axis and `T::from_f64` cannot
represent the computed raw value, value application is a no-op: the stored
value is unchanged and no message is published. -/
theorem c6_unrepresentable_noop (T Message : Type) (toF64 : T → ℚ)
    (fromF64 : ℚ → Option T) (ev : Event) (bounds : Rectangle)
    (cursor : Point) (st : State) (value : T) (range : RangeInclusive T)
    (step : T) (on_change : T → Message) (on_release : Option Message)
    (o : Orientation)
    (hev : ev = .mouse (.buttonPressed .left) ∨ ev = .touch .fingerPressed ∨
      ev = .mouse .cursorMoved ∨ ev = .touch .fingerMoved)
    (hb : cursor_below_bounds o bounds cursor = false)
    (ha : cursor_above_bounds o bounds cursor = false)
    (hn : fromF64 (raw_value T toF64 o bounds cursor range step) = none) :
    (update T Message toF64 fromF64 ev bounds cursor st value range step
      on_change on_release o).value = value ∧
    (update T Message toF64 fromF64 ev bounds cursor st value range step
      on_change on_release o).messages = [] := by
  have hpv : position_to_value T toF64 fromF64 o bounds cursor range step =
      none := by
    simp [position_to_value, hb, ha, hn]
  have hchange : change T Message toF64 fromF64 o bounds cursor range step
      on_change value = (value, []) := by
    rw [change, hpv]
  rcases hev with rfl | rfl | rfl | rfl
  · by_cases hc : bounds.contains cursor = true <;> simp [update, hc, hchange]
  · by_cases hc : bounds.contains cursor = true <;> simp [update, hc, hchange]
  · by_cases hg : st.is_dragging = true <;> simp [update, hg, hchange]
  · by_cases hg : st.is_dragging = true <;> simp [update, hg, hchange]

/-- Witness for C6 at a concrete input: with a conversion that represents
nothing, a press at x = 5 on bounds of width 10 (strictly between the
edges) leaves the value 0 unchanged and publishes nothing. -/
theorem c6_unrepresentable_noop_witness :
    (update ℚ ℚ id (fun _ => none) (.mouse (.buttonPressed .left))
      ⟨0, 0, 10, 2⟩ ⟨5, 1⟩ ⟨false⟩ 0 ⟨0, 10⟩ 1 (fun t => t) none
      .horizontal).value = 0 ∧
    (update ℚ ℚ id (fun _ => none) (.mouse (.buttonPressed .left))
      ⟨0, 0, 10, 2⟩ ⟨5, 1⟩ ⟨false⟩ 0 ⟨0, 10⟩ 1 (fun t => t) none
      .horizontal).messages = [] :=
  c6_unrepresentable_noop ℚ ℚ id (fun _ => none)
    (.mouse (.buttonPressed .left)) ⟨0, 0, 10, 2⟩ ⟨5, 1⟩ ⟨false⟩ 0 ⟨0, 10⟩ 1
    (fun t => t) none .horizontal (Or.inl rfl)
    (by norm_num [cursor_below_bounds])
    (by norm_num [cursor_above_bounds]) rfl

/-! ### Claim C5 (edge clamping of the mapping) -/

/-- Claim C5, amended: in the cursor-to-value mapping, for horizontal
orientation a cursor with x at or before `bounds.x` yields `range.start`,
and one at or beyond `bounds.x + bounds.width` yields `range.end` provided
it is strictly after `bounds.x` (the start-edge test has priority when the
bounds are degenerate and both tests hold); symmetrically for vertical
orientation with the axis inverted: y at or below `bounds.y + bounds.height`
yields `range.start`, and y at or above `bounds.y` yields `range.end`
provided it is strictly above `bounds.y + bounds.height`. -/
theorem c5_edge_values (T : Type) (toF64 : T → ℚ) (fromF64 : ℚ → Option T)
    (bounds : Rectangle) (cursor : Point) (range : RangeInclusive T)
    (step : T) :
    (cursor.x ≤ bounds.x →
      position_to_value T toF64 fromF64 .horizontal bounds cursor range step
        = some range.start) ∧
    (bounds.x < cursor.x → bounds.x + bounds.width ≤ cursor.x →
      position_to_value T toF64 fromF64 .horizontal bounds cursor range step
        = some range.stop) ∧
    (bounds.y + bounds.height ≤ cursor.y →
      position_to_value T toF64 fromF64 .vertical bounds cursor range step
        = some range.start) ∧
    (cursor.y < bounds.y + bounds.height → cursor.y ≤ bounds.y →
      position_to_value T toF64 fromF64 .vertical bounds cursor range step
        = some range.stop) := by
  refine ⟨fun h => ?_, fun h1 h2 => ?_, fun h => ?_, fun h1 h2 => ?_⟩
  · have hb : cursor_below_bounds .horizontal bounds cursor = true := by
      simp [cursor_below_bounds, h]
    rw [position_to_value, hb, if_pos rfl]
  · have hb : cursor_below_bounds .horizontal bounds cursor = false := by
      simp [cursor_below_bounds]; linarith
    have ha : cursor_above_bounds .horizontal bounds cursor = true := by
      simp [cursor_above_bounds, ge_iff_le, h2]
    rw [position_to_value, hb, ha]
    simp
  · have hb : cursor_below_bounds .vertical bounds cursor = true := by
      simp [cursor_below_bounds, ge_iff_le, h]
    rw [position_to_value, hb, if_pos rfl]
  · have hb : cursor_below_bounds .vertical bounds cursor = false := by
      simp [cursor_below_bounds, ge_iff_le]; linarith
    have ha : cursor_above_bounds .vertical bounds cursor = true := by
      simp [cursor_above_bounds, h2]
    rw [position_to_value, hb, ha]
    simp

/-- Witness for C5 at concrete inputs: on range [3, 9], horizontal bounds
x = 0 of width 10, a cursor at x = 0 maps to 3 and one at x = 10 maps to 9;
on vertical bounds y = 0 of height 10, a cursor at y = 10 maps to 3 and one
at y = 0 maps to 9. -/
theorem c5_edge_values_witness :
    position_to_value ℚ id some .horizontal ⟨0, 0, 10, 2⟩ ⟨0, 1⟩ ⟨3, 9⟩ 1
      = some 3 ∧
    position_to_value ℚ id some .horizontal ⟨0, 0, 10, 2⟩ ⟨10, 1⟩ ⟨3, 9⟩ 1
      = some 9 ∧
    position_to_value ℚ id some .vertical ⟨0, 0, 2, 10⟩ ⟨1, 10⟩ ⟨3, 9⟩ 1
      = some 3 ∧
    position_to_value ℚ id some .vertical ⟨0, 0, 2, 10⟩ ⟨1, 0⟩ ⟨3, 9⟩ 1
      = some 9 :=
  ⟨(c5_edge_values ℚ id some ⟨0, 0, 10, 2⟩ ⟨0, 1⟩ ⟨3, 9⟩ 1).1 (by norm_num),
   (c5_edge_values ℚ id some ⟨0, 0, 10, 2⟩ ⟨10, 1⟩ ⟨3, 9⟩ 1).2.1
     (by norm_num) (by norm_num),
   (c5_edge_values ℚ id some ⟨0, 0, 2, 10⟩ ⟨1, 10⟩ ⟨3, 9⟩ 1).2.2.1
     (by norm_num),
   (c5_edge_values ℚ id some ⟨0, 0, 2, 10⟩ ⟨1, 0⟩ ⟨3, 9⟩ 1).2.2.2
     (by norm_num) (by norm_num)⟩

/-- Counterexample to C5 as stated: on degenerate horizontal bounds of
width 0 and range [0, 1], the cursor x = 0 sits at (hence at-or-beyond)
`bounds.x + bounds.width`, yet the mapping yields `range.start` = 0, not
`range.end` = 1, because the start-edge test is checked first. -/
theorem c5_counterexample :
    (0 : ℚ) ≥ 0 + (0 : ℚ) ∧
    cursor_above_bounds .horizontal ⟨0, 0, 0, 1⟩ ⟨0, 1/2⟩ = true ∧
    position_to_value ℚ id some .horizontal ⟨0, 0, 0, 1⟩ ⟨0, 1/2⟩ ⟨0, 1⟩ 1
      = some 0 ∧
    (0 : ℚ) ≠ 1 := by
  norm_num [position_to_value, cursor_below_bounds, cursor_above_bounds]

/-! ### Claim C7 (construction clamp) -/

/-- Claim C7, amended: for every range with `start ≤ end`, `Slider::new`
stores the clamped value — `range.start` when the value lies below it,
`range.end` when it lies above it, the value itself otherwise — and
construction never fails (it is a total function; for a degenerate range
with `start > end` the end-clamp is applied last and wins, which is what
the counterexample forces the amendment to exclude). -/
theorem c7_new_clamps (T : Type) [LinearOrder T] [One T]
    (range : RangeInclusive T) (value : T)
    (hse : range.start ≤ range.stop) :
    (value < range.start → (Slider.new T range value).value = range.start) ∧
    (range.stop < value → (Slider.new T range value).value = range.stop) ∧
    (range.start ≤ value → value ≤ range.stop →
      (Slider.new T range value).value = value) := by
  refine ⟨fun h => ?_, fun h => ?_, fun h1 h2 => ?_⟩
  · have hnv : ¬ (value ≥ range.start) := not_le.mpr h
    simp only [Slider.new, if_neg hnv, if_pos hse]
  · have hv : value ≥ range.start := le_trans hse h.le
    have hns : ¬ (value ≤ range.stop) := not_le.mpr h
    simp only [Slider.new, if_pos hv, if_neg hns]
  · simp only [Slider.new, if_pos (show value ≥ range.start from h1),
      if_pos h2]

/-- Witness for C7 at concrete inputs: on range [0, 10], constructing with
-5 stores 0, with 15 stores 10, and with 7 stores 7. -/
theorem c7_new_clamps_witness :
    (Slider.new ℚ ⟨0, 10⟩ (-5)).value = 0 ∧
    (Slider.new ℚ ⟨0, 10⟩ 15).value = 10 ∧
    (Slider.new ℚ ⟨0, 10⟩ 7).value = 7 :=
  ⟨(c7_new_clamps ℚ ⟨0, 10⟩ (-5) (by norm_num)).1 (by norm_num),
   (c7_new_clamps ℚ ⟨0, 10⟩ 15 (by norm_num)).2.1 (by norm_num),
   (c7_new_clamps ℚ ⟨0, 10⟩ 7 (by norm_num)).2.2 (by norm_num)
     (by norm_num)⟩

/-- Counterexample to C7 as stated: for the degenerate range [5, 3] and
initial value 4 < range.start, the stored value is range.end = 3, not
range.start = 5, because the end-clamp is applied after the start-clamp. -/
theorem c7_counterexample :
    (4 : ℚ) < 5 ∧ (Slider.new ℚ ⟨5, 3⟩ 4).value = 3 ∧ (3 : ℚ) ≠ 5 := by
  norm_num [Slider.new]

/-! ### Claim C8 (sizing hints) -/

/-- Claim C8, amended: the sizing hints `Widget::width`/`Widget::height`
are `Fill` along the value axis unless explicitly overridden, but on the
cross axis they are always `Shrink` (the explicit override is ignored
there); the fixed 22-unit cross-axis default applies only inside
`Widget::layout`, where the effective cross-axis dimension is the explicit
override if any and `Units 22` otherwise. -/
theorem c8_sizing_hints (T : Type) (s : Slider T) :
    (s.orientation = .horizontal →
      s.widget_width = s.width.getD .fill ∧
      s.widget_height = .shrink ∧
      s.layout_width = s.width.getD .fill ∧
      s.layout_height = s.height.getD (.units 22)) ∧
    (s.orientation = .vertical →
      s.widget_height = s.height.getD .fill ∧
      s.widget_width = .shrink ∧
      s.layout_height = s.height.getD .fill ∧
      s.layout_width = s.width.getD (.units 22)) := by
  constructor <;> intro h <;>
    simp [Slider.widget_width, Slider.widget_height, Slider.layout_width,
      Slider.layout_height, Orientation.default_width,
      Orientation.default_height, Orientation.DEFAULT_WIDTH,
      Orientation.DEFAULT_HEIGHT, h]

/-- Witness for C8 at a concrete input: a freshly constructed (horizontal)
slider reports width hint `Fill` and height hint `Shrink`, and its layout
height resolves to the 22-unit default. -/
theorem c8_sizing_hints_witness :
    (Slider.new ℚ ⟨0, 100⟩ 50).widget_width = .fill ∧
    (Slider.new ℚ ⟨0, 100⟩ 50).widget_height = .shrink ∧
    (Slider.new ℚ ⟨0, 100⟩ 50).layout_width = .fill ∧
    (Slider.new ℚ ⟨0, 100⟩ 50).layout_height = .units 22 :=
  (c8_sizing_hints ℚ (Slider.new ℚ ⟨0, 100⟩ 50)).1 rfl

/-- Counterexample to C8 as stated: the preferred-height hint of a
horizontal slider is `Shrink`, not the claimed 22-unit default, and it
stays `Shrink` even when an explicit height of 50 units is set (the
override is not respected by the hint). -/
theorem c8_counterexample :
    (Slider.new ℚ ⟨0, 100⟩ 50).widget_height = .shrink ∧
    ({ Slider.new ℚ ⟨0, 100⟩ 50 with
        height := some (.units 50) } : Slider ℚ).widget_height = .shrink ∧
    Length.shrink ≠ Length.units 22 ∧
    Length.shrink ≠ Length.units 50 := by
  refine ⟨rfl, rfl, by decide, by decide⟩

/-! ### Claim C9 (handle offset in draw) -/

/-- Claim C9: the handle offset computed in `draw` is 0 whenever
`range_start ≥ range_end`, and otherwise equals the bounds length along the
value axis times the interpolation of the value within the range (inverted
for vertical orientation) minus half the handle's thickness along that
axis; in particular, for range [0, 100], value 25, horizontal orientation,
bounds width 200 and handle width 20 the offset is 40. -/
theorem c9_handle_offset_formula (o : Orientation) (bounds : Rectangle)
    (value range_start range_end handle_width : ℚ) :
    (range_start ≥ range_end →
      handle_offset o bounds value range_start range_end handle_width = 0) ∧
    (range_start < range_end →
      handle_offset .horizontal bounds value range_start range_end
          handle_width =
        bounds.width * (value - range_start) / (range_end - range_start)
          - handle_width / 2) ∧
    (range_start < range_end →
      handle_offset .vertical bounds value range_start range_end
          handle_width =
        bounds.height * (value - range_end) / (range_start - range_end)
          - handle_width / 2) ∧
    handle_offset .horizontal ⟨0, 0, 200, 22⟩ 25 0 100 20 = 40 := by
  refine ⟨fun h => ?_, fun h => ?_, fun h => ?_, ?_⟩
  · unfold handle_offset
    rw [if_pos h]
  · unfold handle_offset
    rw [if_neg (not_le.mpr h)]
  · unfold handle_offset
    rw [if_neg (not_le.mpr h)]
  · norm_num [handle_offset]

/-- Witness for C9 at concrete inputs: for the degenerate range [100, 100]
the offset is 0, and for range [0, 100], value 25, bounds width 200 and
handle width 20 the horizontal offset is 40. -/
theorem c9_handle_offset_formula_witness :
    handle_offset .horizontal ⟨0, 0, 200, 22⟩ 25 100 100 20 = 0 ∧
    handle_offset .horizontal ⟨0, 0, 200, 22⟩ 25 0 100 20 = 40 :=
  ⟨(c9_handle_offset_formula .horizontal ⟨0, 0, 200, 22⟩ 25 100 100 20).1
     (le_refl _),
   (c9_handle_offset_formula .horizontal ⟨0, 0, 200, 22⟩ 25 0 100 20).2.2.2⟩

end Iced
